import Mathlib

/-
  Verification development for the credential-issuance subsystem of
  gh-secrets-manager (Go).  Shallow embedding conventions:

  * Go time.Time is modelled as Int, measured in seconds; the Go zero time
    is 0 and t.After(u) is strict greater-than, t.Add(d) is addition.
  * HTTP and JSON are external collaborators: a network interaction is an
    explicit input of the embedded function, carrying the status code, the
    raw body string, and the result of the json.Unmarshal call the source
    performs on that body (none models an unmarshal failure).  A value of
    none for the whole interaction models a transport-level failure of
    http.Client.Do.
  * Every embedded operation also returns the list of upstream requests it
    issued, so that claims of the form "no network call is made" are
    statable.
-/

namespace SecretsManager

/-! ## auth package: src/auth-server/pkg/auth/auth.go -/

/-- Error values produced by the auth package; each constructor corresponds
to one fmt.Errorf site in src/auth-server/pkg/auth/auth.go. -/
inductive AuthErr where
  /-- validation failures such as "username, organization, and team are required"
  and the nil-private-key check in GenerateJWT -/
  | validation (msg : String)
  /-- transport failure of http.Client.Do ("making request") -/
  | networkErr
  /-- json.Unmarshal failure ("decoding response" / "parsing response") -/
  | parseErr
  /-- 403 from the membership endpoint ("access forbidden: unable to check team membership") -/
  | forbidden
  /-- non-success status: "GitHub API error: status - body" -/
  | apiError (status : Nat) (body : String)
  /-- "invalid token response: missing required fields" and
  "invalid installation response: missing account login" -/
  | invalidResponse
deriving DecidableEq

/-- GitHubAuth (auth.go lines 19-22).  The rsa.PrivateKey field is crypto
material the embedding does not inspect; hasKey models whether the pointer
is non-nil (NewGitHubAuth only ever stores a successfully parsed key). -/
structure GitHubAuth where
  hasKey : Bool
  appID : Int
deriving DecidableEq

/-- The registered claims GenerateJWT places in the assertion
(auth.go lines 75-79).  The RS256 signature itself is crypto and opaque;
the assertion is identified with its claims. -/
structure JWTClaims where
  issuedAt : Int
  expiresAt : Int
  issuer : String
deriving DecidableEq

/-- One minute of Go time.Duration in the Int-seconds model. -/
def minute : Int := 60

/-- GenerateJWT (auth.go lines 70-98): nil key check, then fresh claims
with IssuedAt = now, ExpiresAt = now.Add(10 * time.Minute) and
Issuer = fmt.Sprintf of the app id.  Signing with a present key is the
crypto step and always succeeds in the model. -/
def GenerateJWT (gh : GitHubAuth) (now : Int) : Except AuthErr JWTClaims :=
  if gh.hasKey then
    .ok { issuedAt := now, expiresAt := now + 10 * minute, issuer := toString gh.appID }
  else
    .error (.validation "private key is nil")

/-- The decoded body of a 201 response from the access-tokens endpoint
(auth.go lines 148-151); expiresAt = 0 models a Go zero time.Time,
matching the ExpiresAt.IsZero() check. -/
structure TokenRespBody where
  token : String
  expiresAt : Int
deriving DecidableEq

/-- A response from the access-tokens endpoint: status code, raw body, and
the result of json.Unmarshal of that body into the token struct. -/
structure ExchangeResp where
  status : Nat
  body : String
  parsed : Option TokenRespBody
deriving DecidableEq

/-- The decoded body of the installation-lookup endpoint
(auth.go lines 29-35). -/
structure InstBody where
  login : String
  accountType : String
deriving DecidableEq

/-- A response from the installation-lookup endpoint. -/
structure InstResp where
  status : Nat
  body : String
  parsed : Option InstBody
deriving DecidableEq

/-- A response from the team-membership endpoint; parsedState is the result
of json.Unmarshal of the body into the struct with the state field
(auth.go lines 291-299). -/
structure MembershipResp where
  status : Nat
  body : String
  parsedState : Option String
deriving DecidableEq

/-- One upstream GitHub-platform request, recorded in issue order. -/
inductive UpstreamCall where
  /-- GET /app/installations/id -/
  | installLookup (installationID : Int)
  /-- POST /app/installations/id/access_tokens -/
  | tokenExchange (installationID : Int)
  /-- GET /orgs/org/teams/team/memberships/user -/
  | membershipCheck (organization team username : String)
deriving DecidableEq

/-- GetInstallationToken (auth.go lines 100-174): generate a JWT, POST the
access-tokens endpoint, require status 201 exactly, decode the body, and
reject an empty token or zero expiry; on success the returned credential is
exactly the decoded platform value.  The io.ReadAll failure path is folded
into the transport-failure case (net = none), as both abort before any
status or body inspection. -/
def GetInstallationToken (gh : GitHubAuth) (installationID : Int) (now : Int)
    (net : Option ExchangeResp) : Except AuthErr TokenRespBody × List UpstreamCall :=
  match GenerateJWT gh now with
  | .error e => (.error e, [])
  | .ok _ =>
    match net with
    | none => (.error .networkErr, [.tokenExchange installationID])
    | some resp =>
      if resp.status ≠ 201 then
        (.error (.apiError resp.status resp.body), [.tokenExchange installationID])
      else
        match resp.parsed with
        | none => (.error .parseErr, [.tokenExchange installationID])
        | some t =>
          if t.token = "" ∨ t.expiresAt = 0 then
            (.error .invalidResponse, [.tokenExchange installationID])
          else
            (.ok t, [.tokenExchange installationID])

/-- GetInstallation (auth.go lines 176-245): generate a JWT, GET the
installation endpoint, require status 200, decode, and reject a missing
account login. -/
def GetInstallation (gh : GitHubAuth) (installationID : Int) (now : Int)
    (net : Option InstResp) : Except AuthErr InstBody × List UpstreamCall :=
  match GenerateJWT gh now with
  | .error e => (.error e, [])
  | .ok _ =>
    match net with
    | none => (.error .networkErr, [.installLookup installationID])
    | some resp =>
      if resp.status ≠ 200 then
        (.error (.apiError resp.status resp.body), [.installLookup installationID])
      else
        match resp.parsed with
        | none => (.error .parseErr, [.installLookup installationID])
        | some inst =>
          if inst.login = "" then
            (.error .invalidResponse, [.installLookup installationID])
          else
            (.ok inst, [.installLookup installationID])

/-- VerifyTeamMembership (auth.go lines 248-326): reject empty username,
organization or team before any request; then GET the membership endpoint
and switch on the status code: 200 decodes the body and reports whether
state equals active, 404 is a negative decision without error, 403 is the
forbidden error, anything else is an api error carrying status and body.
The installationToken argument only feeds the Authorization header. -/
def VerifyTeamMembership (gh : GitHubAuth) (installationToken username organization team : String)
    (net : Option MembershipResp) : Except AuthErr Bool × List UpstreamCall :=
  if username = "" ∨ organization = "" ∨ team = "" then
    (.error (.validation "username, organization, and team are required"), [])
  else
    match net with
    | none => (.error .networkErr, [.membershipCheck organization team username])
    | some resp =>
      if resp.status = 200 then
        match resp.parsedState with
        | none => (.error .parseErr, [.membershipCheck organization team username])
        | some st => (.ok (st == "active"), [.membershipCheck organization team username])
      else if resp.status = 404 then
        (.ok false, [.membershipCheck organization team username])
      else if resp.status = 403 then
        (.error .forbidden, [.membershipCheck organization team username])
      else
        (.error (.apiError resp.status resp.body), [.membershipCheck organization team username])

/-! ## Broker HTTP surface: src/auth-server/cmd/server/main.go

The version of main.go present under src has the method and parameter
validation of handleToken but not the membership gate; the gated handler
(Handler fields organization and team, username/org/team query parameters,
the auto-detect step and the 403 rejection) exists in this repository only
through its tests (src/auth-server/cmd/server/main_test.go) and the
document src/TEAM_VERIFICATION.md, so that part is modelled from the
specification below. -/

/-- strconv.ParseInt result for one decimal character sequence. -/
def decDigits (cs : List Char) : Option Nat :=
  cs.foldl
    (fun acc c =>
      match acc with
      | none => none
      | some n => if c.isDigit then some (n * 10 + (c.toNat - 48)) else none)
    (some 0)

/-- strconv.ParseInt(s, 10, 64): optional sign, at least one decimal digit,
value within the int64 range. -/
def parseInt64 (s : String) : Option Int :=
  let signAndDigits : Bool × List Char :=
    match s.data with
    | '-' :: rest => (true, rest)
    | '+' :: rest => (false, rest)
    | cs => (false, cs)
  if signAndDigits.2.isEmpty then none
  else
    match decDigits signAndDigits.2 with
    | none => none
    | some n =>
      let v : Int := if signAndDigits.1 then -(n : Int) else (n : Int)
      if v < -(2 ^ 63) ∨ v > 2 ^ 63 - 1 then none else some v

/-- The broker Handler state: the loaded key material (keyOk models whether
NewGitHubAuth succeeds on privateKeyPEM) and the server-level organization
and team configuration from the command line. -/
structure Handler where
  keyOk : Bool
  organization : String
  team : String
deriving DecidableEq

/-- One /token request: the HTTP method and the query parameters, where the
empty string models an absent parameter exactly as Go r.URL.Query().Get
does. -/
structure TokenRequest where
  method : String
  appID : String
  installationID : String
  username : String
  org : String
  team : String
deriving DecidableEq

/-- The platform side of one broker request: the response each upstream
endpoint would give if called. -/
structure PlatformOracle where
  install : Option InstResp
  exchange : Option ExchangeResp
  membership : Option MembershipResp
deriving DecidableEq

/-- Body of a broker HTTP reply: either the JSON token envelope written by
json.NewEncoder(w).Encode(token), or an http.Error message. -/
inductive RespBody where
  | jsonToken (token : String) (expiresAt : Int)
  | message (msg : String)
deriving DecidableEq

/-- A broker HTTP reply. -/
structure HTTPReply where
  status : Nat
  body : RespBody
deriving DecidableEq

/-- The installation token carried by a reply, if any. -/
def tokenOf (r : HTTPReply) : Option String :=
  match r.body with
  | .jsonToken t _ => some t
  | .message _ => none

/-- Modelled from the spec: effective team for a request, section 4.4
step 2 of the specification (request-supplied values override server-level
configuration). -/
def effectiveTeam (h : Handler) (req : TokenRequest) : String :=
  if req.team ≠ "" then req.team else h.team

/-- Modelled from the spec: effective organization before auto-detection,
section 4.4 step 2 (request value overrides server configuration). -/
def effectiveOrgParam (h : Handler) (req : TokenRequest) : String :=
  if req.org ≠ "" then req.org else h.organization

/-- Modelled from the spec: organization resolution of section 4.4 step 2.
If neither request nor configuration supplies an organization, the handler
auto-detects it by looking up the owning account of the installation via
the platform API, rejecting the request if that lookup fails to resolve an
organization. -/
def resolveOrganization (gh : GitHubAuth) (installationID : Int) (now : Int)
    (orgParam : String) (up : PlatformOracle) : Option String × List UpstreamCall :=
  if orgParam ≠ "" then (some orgParam, [])
  else
    let r := GetInstallation gh installationID now up.install
    match r.1 with
    | .ok inst => (some inst.login, r.2)
    | .error _ => (none, r.2)

/-- The ungated issuance path of handleToken (present in
src/auth-server/cmd/server/main.go lines 113-130): exchange and return the
credential, any exchange failure being a 500. -/
def issuePlain (gh : GitHubAuth) (installationID now : Int) (up : PlatformOracle) :
    HTTPReply × List UpstreamCall :=
  let ex := GetInstallationToken gh installationID now up.exchange
  match ex.1 with
  | .error _ => (⟨500, .message "Failed to get installation token"⟩, ex.2)
  | .ok tok => (⟨200, .jsonToken tok.token tok.expiresAt⟩, ex.2)

/-- Modelled from the spec: the team-gated issuance path, section 4.4
steps 2-6, absent from the main.go under src.  Step 2 resolves the
organization (auto-detecting via the installation lookup when needed) and
rejects with a 400 when no organization can be resolved; step 3 requires a
non-empty username under a team gate, else a 400; step 4 exchanges the
token, any failure being a 500; step 5 verifies team membership with the
freshly issued credential, an inactive or missing membership being a 403
that discards the credential and a verifier error (including the forbidden
case) being a 500; step 6 releases the credential. -/
def gatedIssue (gh : GitHubAuth) (installationID now : Int)
    (username orgParam team : String) (up : PlatformOracle) :
    HTTPReply × List UpstreamCall :=
  let ro := resolveOrganization gh installationID now orgParam up
  match ro.1 with
  | none => (⟨400, .message "organization is required for team verification"⟩, ro.2)
  | some org =>
    if username = "" then
      (⟨400, .message "username query parameter is required"⟩, ro.2)
    else
      let ex := GetInstallationToken gh installationID now up.exchange
      match ex.1 with
      | .error _ => (⟨500, .message "Failed to get installation token"⟩, ro.2 ++ ex.2)
      | .ok tok =>
        let vr := VerifyTeamMembership gh tok.token username org team up.membership
        match vr.1 with
        | .ok true =>
          (⟨200, .jsonToken tok.token tok.expiresAt⟩, ro.2 ++ ex.2 ++ vr.2)
        | .ok false =>
          (⟨403, .message "user is not a member of team"⟩, ro.2 ++ ex.2 ++ vr.2)
        | .error _ =>
          (⟨500, .message "failed to verify team membership"⟩, ro.2 ++ ex.2 ++ vr.2)

/-- handleToken.  Method check and app-id / installation-id validation
follow src/auth-server/cmd/server/main.go lines 69-111 (405 on a non-POST
method, 400 on a missing or non-numeric id, 500 when NewGitHubAuth fails on
the key material).  Modelled from the spec: the team gate of section 4.4
steps 2-5 (absent from the main.go under src), entered when the effective
team is non-empty. -/
def handleToken (h : Handler) (req : TokenRequest) (now : Int) (up : PlatformOracle) :
    HTTPReply × List UpstreamCall :=
  if req.method ≠ "POST" then (⟨405, .message "Method not allowed"⟩, [])
  else if req.appID = "" then
    (⟨400, .message "app-id query parameter is required"⟩, [])
  else if req.installationID = "" then
    (⟨400, .message "installation-id query parameter is required"⟩, [])
  else
    match parseInt64 req.appID with
    | none => (⟨400, .message "invalid app-id"⟩, [])
    | some appID =>
      match parseInt64 req.installationID with
      | none => (⟨400, .message "invalid installation-id"⟩, [])
      | some installationID =>
        if h.keyOk then
          let gh : GitHubAuth := ⟨true, appID⟩
          if effectiveTeam h req = "" then
            issuePlain gh installationID now up
          else
            gatedIssue gh installationID now req.username (effectiveOrgParam h req)
              (effectiveTeam h req) up
        else
          (⟨500, .message "Failed to initialize GitHub auth"⟩, [])

/-! ## Client cache and refresh: src/pkg/api/client.go -/

/-- AuthMethod (client.go lines 24-29). -/
inductive AuthMethod where
  | pat
  | githubApp
deriving DecidableEq

/-- ClientOptions (client.go lines 31-39). -/
structure ClientOptions where
  authMethod : AuthMethod
  appID : Int
  installationID : Int
  authServer : String
  username : String
  organization : String
  team : String
deriving DecidableEq

/-- The mutable credential fields of Client (client.go lines 46-52):
authToken and expiresAt.  The struct holds no mutex or other
synchronization primitive. -/
structure ClientState where
  authToken : String
  expiresAt : Int
deriving DecidableEq

/-- authResponse (client.go lines 41-44): the decoded broker reply body. -/
structure AuthRespBody where
  token : String
  expiresAt : Int
deriving DecidableEq

/-- One reply of the broker auth server: status, raw body, and the result
of decoding the body into authResponse. -/
structure BrokerResp where
  status : Nat
  body : String
  parsed : Option AuthRespBody
deriving DecidableEq

/-- Error values of the client refresh path, one per fmt.Errorf site in
refreshToken (client.go lines 201-299). -/
inductive ClientErr where
  /-- "auth server URL is required" -/
  | authServerRequired
  /-- "failed to get token from auth server" -/
  | networkErr
  /-- "auth server returned status ..." with the status and body -/
  | httpErr (status : Nat) (body : String)
  /-- "failed to decode auth response" -/
  | decodeErr
  /-- a failure of the downstream GitHub call of an operation -/
  | githubErr
deriving DecidableEq

/-- One outbound request of the client. -/
inductive ClientCall where
  /-- POST authServer/token with the configured query parameters -/
  | brokerToken (appID installationID : Int) (username organization team : String)
  /-- a GitHub API request of an operation, with the bearer token it uses -/
  | githubAPI (url : String) (bearer : String)
deriving DecidableEq

/-- refreshToken (client.go lines 201-299): require a configured auth
server, POST its /token endpoint with app-id, installation-id and the
optional username, org and team parameters, require status 200, decode the
body, and replace the cached token and expiry with the decoded values.  On
any failure the cached fields are left untouched (the caller keeps its
previous state). -/
def refreshToken (opts : ClientOptions) (st : ClientState) (net : Option BrokerResp) :
    Except ClientErr ClientState × List ClientCall :=
  if opts.authServer = "" then (.error .authServerRequired, [])
  else
    let call := ClientCall.brokerToken opts.appID opts.installationID
      opts.username opts.organization opts.team
    match net with
    | none => (.error .networkErr, [call])
    | some resp =>
      if resp.status ≠ 200 then (.error (.httpErr resp.status resp.body), [call])
      else
        match resp.parsed with
        | none => (.error .decodeErr, [call])
        | some a => (.ok ⟨a.token, a.expiresAt⟩, [call])

/-- ensureValidToken (client.go lines 315-337): a non-GitHub-App client
returns immediately; otherwise refresh exactly when
time.Now().Add(time.Minute).After(expiresAt), that is when
now + minute is strictly greater than the cached expiry. -/
def ensureValidToken (opts : ClientOptions) (st : ClientState) (now : Int)
    (net : Option BrokerResp) : Except ClientErr ClientState × List ClientCall :=
  if opts.authMethod ≠ AuthMethod.githubApp then (.ok st, [])
  else if st.expiresAt < now + minute then refreshToken opts st net
  else (.ok st, [])

/-- The org-secrets listing URL of client.go line 351. -/
def orgSecretsURL (org : String) : String := "orgs/" ++ org ++ "/actions/secrets"

/-- The GitHub side of one listing operation: whether the call succeeds and
the secret names it returns (github.Secret payloads are opaque here). -/
structure GHListResp where
  succeeds : Bool
  secrets : List String
deriving DecidableEq

/-- ListOrgSecrets (client.go lines 346-365): ensure a valid token, aborting
with the refresh error before any GitHub request when that fails; otherwise
GET the org secrets endpoint with the current bearer token. -/
def ListOrgSecrets (opts : ClientOptions) (st : ClientState) (now : Int) (org : String)
    (brokerNet : Option BrokerResp) (ghNet : GHListResp) :
    Except ClientErr (List String) × ClientState × List ClientCall :=
  let r := ensureValidToken opts st now brokerNet
  match r.1 with
  | .error e => (.error e, st, r.2)
  | .ok st2 =>
    let call := ClientCall.githubAPI (orgSecretsURL org) st2.authToken
    if ghNet.succeeds then (.ok ghNet.secrets, st2, r.2 ++ [call])
    else (.error .githubErr, st2, r.2 ++ [call])

/-! ## Interleaving model of concurrent ensureValidToken callers

Client (client.go lines 46-52) holds no mutex, so two goroutines calling
ensureValidToken on one Client interleave freely over the shared authToken
and expiresAt fields.  Each caller takes two atomic steps: first it reads
the shared state and evaluates the expiry condition of client.go line 321,
then, if the condition held, it performs the refresh of client.go line 325
and writes the new credential.  A schedule is the order in which the two
callers take their next step. -/

/-- The shared client state plus the program counter of each of two
callers (0 = condition not yet evaluated, 1 = refresh pending, 2 = done)
and the number of broker requests issued so far. -/
structure ConcSystem where
  shared : ClientState
  pc0 : Nat
  pc1 : Nat
  brokerCalls : Nat
deriving DecidableEq

/-- One step of caller i (0 or 1): evaluate the expiry condition against
the current shared state, or perform the pending refresh, installing the
fresh credential and counting one broker request. -/
def concStep (now : Int) (fresh : ClientState) (i : Nat) (s : ConcSystem) : ConcSystem :=
  if i = 0 then
    match s.pc0 with
    | 0 =>
      if s.shared.expiresAt < now + minute then { s with pc0 := 1 }
      else { s with pc0 := 2 }
    | 1 => { s with shared := fresh, pc0 := 2, brokerCalls := s.brokerCalls + 1 }
    | _ => s
  else
    match s.pc1 with
    | 0 =>
      if s.shared.expiresAt < now + minute then { s with pc1 := 1 }
      else { s with pc1 := 2 }
    | 1 => { s with shared := fresh, pc1 := 2, brokerCalls := s.brokerCalls + 1 }
    | _ => s

/-- Run a schedule of caller steps from a system state. -/
def runConc (now : Int) (fresh : ClientState) (sched : List Nat) (s : ConcSystem) : ConcSystem :=
  sched.foldl (fun acc i => concStep now fresh i acc) s

/-! ## Theorems -/

/-- Claim C7: every sign call on the identity signer produces a fresh
assertion whose issued-at equals the current time, whose expires-at equals
issued-at plus exactly 10 minutes, and whose issuer claim is the
application ID rendered as a decimal string. -/
theorem generateJWT_fresh_claims (gh : GitHubAuth) (now : Int) (hkey : gh.hasKey = true) :
    GenerateJWT gh now =
      .ok { issuedAt := now, expiresAt := now + 10 * minute, issuer := toString gh.appID } := by
  simp [GenerateJWT, hkey]

/-- Witness for C7 at a concrete app identity and time. -/
theorem generateJWT_fresh_claims_witness :
    GenerateJWT ⟨true, 123456⟩ 1000 = .ok ⟨1000, 1600, "123456"⟩ := by
  exact generateJWT_fresh_claims ⟨true, 123456⟩ 1000 rfl

/-- Claim C4: the token exchange returns a credential if and only if the
platform responds with status 201 and the decoded body has a non-empty
token and a non-zero expiry; any other status yields an error carrying that
status and the response body; on success the returned credential, its
expiry included, is exactly the decoded platform value. -/
theorem getInstallationToken_contract (gh : GitHubAuth) (installationID now : Int)
    (net : Option ExchangeResp) (hkey : gh.hasKey = true) :
    (∀ t : TokenRespBody,
        (GetInstallationToken gh installationID now net).1 = .ok t ↔
          ∃ resp : ExchangeResp, net = some resp ∧ resp.status = 201 ∧
            resp.parsed = some t ∧ t.token ≠ "" ∧ t.expiresAt ≠ 0) ∧
    (∀ resp : ExchangeResp, net = some resp → resp.status ≠ 201 →
        (GetInstallationToken gh installationID now net).1 =
          .error (.apiError resp.status resp.body)) := by
  have hjwt : GenerateJWT gh now =
      .ok { issuedAt := now, expiresAt := now + 10 * minute, issuer := toString gh.appID } := by
    simp [GenerateJWT, hkey]
  constructor
  · intro t
    constructor
    · intro h
      cases net with
      | none => simp [GetInstallationToken, hjwt] at h
      | some resp =>
        refine ⟨resp, rfl, ?_⟩
        by_cases hs : resp.status = 201
        · cases hp : resp.parsed with
          | none => simp [GetInstallationToken, hjwt, hs, hp] at h
          | some t2 =>
            by_cases hv : t2.token = "" ∨ t2.expiresAt = 0
            · simp [GetInstallationToken, hjwt, hs, hp, hv] at h
            · push_neg at hv
              simp [GetInstallationToken, hjwt, hs, hp, hv.1, hv.2] at h
              exact ⟨hs, by simp [hp, h], by rw [← h]; exact hv.1, by rw [← h]; exact hv.2⟩
        · simp [GetInstallationToken, hjwt, hs] at h
    · rintro ⟨resp, rfl, hs, hp, htok, hexp⟩
      simp [GetInstallationToken, hjwt, hs, hp, htok, hexp]
  · intro resp hnet hs
    subst hnet
    simp [GetInstallationToken, hjwt, hs]

/-- Witness for C4 at a concrete 201 response with a non-empty token. -/
theorem getInstallationToken_contract_witness :
    (GetInstallationToken ⟨true, 123456⟩ 987654 0
        (some ⟨201, "", some ⟨"ghs_tok", 3600⟩⟩)).1 = .ok ⟨"ghs_tok", 3600⟩ := by
  exact ((getInstallationToken_contract ⟨true, 123456⟩ 987654 0
      (some ⟨201, "", some ⟨"ghs_tok", 3600⟩⟩) rfl).1 ⟨"ghs_tok", 3600⟩).mpr
    ⟨⟨201, "", some ⟨"ghs_tok", 3600⟩⟩, rfl, rfl, rfl, by decide, by decide⟩

/-- Claim C5: the team-level membership verifier maps platform responses
exactly as: 200 with state active is a positive decision; 200 with any
other state is a negative decision without error; 404 is a negative
decision without error; 403 is an error, not a negative decision; any other
status is an error carrying the status and body. -/
theorem verifyTeamMembership_decision_table (gh : GitHubAuth) (tok u o t : String)
    (resp : MembershipResp) (hu : u ≠ "") (ho : o ≠ "") (ht : t ≠ "") :
    (resp.status = 200 → resp.parsedState = some "active" →
        (VerifyTeamMembership gh tok u o t (some resp)).1 = .ok true) ∧
    (∀ s : String, resp.status = 200 → resp.parsedState = some s → s ≠ "active" →
        (VerifyTeamMembership gh tok u o t (some resp)).1 = .ok false) ∧
    (resp.status = 404 →
        (VerifyTeamMembership gh tok u o t (some resp)).1 = .ok false) ∧
    (resp.status = 403 →
        (VerifyTeamMembership gh tok u o t (some resp)).1 = .error .forbidden) ∧
    (resp.status ≠ 200 → resp.status ≠ 404 → resp.status ≠ 403 →
        (VerifyTeamMembership gh tok u o t (some resp)).1 =
          .error (.apiError resp.status resp.body)) := by
  refine ⟨?_, ?_, ?_, ?_, ?_⟩
  · intro hs hp
    simp [VerifyTeamMembership, hu, ho, ht, hs, hp]
  · intro s hs hp hne
    simp [VerifyTeamMembership, hu, ho, ht, hs, hp, hne]
  · intro hs
    simp [VerifyTeamMembership, hu, ho, ht, hs]
  · intro hs
    simp [VerifyTeamMembership, hu, ho, ht, hs]
  · intro h200 h404 h403
    simp [VerifyTeamMembership, hu, ho, ht, h200, h404, h403]

/-- Witness for C5 at a concrete pending-state response. -/
theorem verifyTeamMembership_decision_table_witness :
    (VerifyTeamMembership ⟨true, 1⟩ "ghs_tok" "alice" "acme" "core"
        (some ⟨200, "", some "pending"⟩)).1 = .ok false := by
  exact (verifyTeamMembership_decision_table ⟨true, 1⟩ "ghs_tok" "alice" "acme" "core"
      ⟨200, "", some "pending"⟩ (by decide) (by decide) (by decide)).2.1
    "pending" rfl rfl (by decide)

/-- Claim C6: a membership verification call in which username,
organization, or team is empty returns a validation error and issues no
network request, whatever the platform would have answered. -/
theorem verifyTeamMembership_validates_before_network (gh : GitHubAuth)
    (tok u o t : String) (net : Option MembershipResp)
    (h : u = "" ∨ o = "" ∨ t = "") :
    VerifyTeamMembership gh tok u o t net =
      (.error (.validation "username, organization, and team are required"), []) := by
  rcases h with h | h | h <;> simp [VerifyTeamMembership, h]

/-- Witness for C6 with an empty username and a platform that would have
answered positively. -/
theorem verifyTeamMembership_validates_before_network_witness :
    VerifyTeamMembership ⟨true, 1⟩ "ghs_tok" "" "acme" "core"
        (some ⟨200, "", some "active"⟩) =
      (.error (.validation "username, organization, and team are required"), []) := by
  exact verifyTeamMembership_validates_before_network ⟨true, 1⟩ "ghs_tok" "" "acme" "core"
    (some ⟨200, "", some "active"⟩) (Or.inl rfl)

/-- Helper: with a configured auth server, refreshToken issues exactly one
broker request, whatever the broker answers. -/
theorem refreshToken_trace (opts : ClientOptions) (st : ClientState)
    (net : Option BrokerResp) (hsrv : opts.authServer ≠ "") :
    (refreshToken opts st net).2 =
      [ClientCall.brokerToken opts.appID opts.installationID
        opts.username opts.organization opts.team] := by
  cases net with
  | none => simp [refreshToken, hsrv]
  | some resp =>
    by_cases hs : resp.status = 200
    · cases hp : resp.parsed <;> simp [refreshToken, hsrv, hs, hp]
    · simp [refreshToken, hsrv, hs]

/-- Helper: ensureValidToken never issues a GitHub API request itself. -/
theorem ensureValidToken_no_github_call (opts : ClientOptions) (st : ClientState)
    (now : Int) (net : Option BrokerResp) :
    ∀ u b, ClientCall.githubAPI u b ∉ (ensureValidToken opts st now net).2 := by
  intro u b
  by_cases ha : opts.authMethod = AuthMethod.githubApp
  · by_cases hc : st.expiresAt < now + minute
    · by_cases hsrv : opts.authServer = ""
      · simp [ensureValidToken, ha, hc, refreshToken, hsrv]
      · rw [ensureValidToken, if_neg (by simp [ha]), if_pos hc,
          refreshToken_trace opts st net hsrv]
        simp
    · simp [ensureValidToken, ha, hc]
  · simp [ensureValidToken, ha]

/-- Counterexample to claim C3: at the exact boundary now + 1 minute =
cached expiry (now = 0, expiry = 60 in the seconds model) the code does
NOT refresh: ensureValidToken returns the cached state unchanged and
issues no broker request, because the Go condition
time.Now().Add(time.Minute).After(expiresAt) is strict. -/
theorem ensureValidToken_boundary_counterexample :
    (0 : Int) + minute = 60 ∧
    ensureValidToken ⟨.githubApp, 1, 2, "http://auth", "", "", ""⟩ ⟨"tok", 60⟩ 0
        (some ⟨200, "", some ⟨"new", 7200⟩⟩) = (.ok ⟨"tok", 60⟩, []) :=
  ⟨by decide, rfl⟩

/-- Claim C3 (amended): for a GitHub-App client with a configured auth
server, ensureValidToken triggers a refresh (observable as its broker
request) exactly when now + 1 minute is strictly after the cached expiry;
at the boundary now + 1 minute = expiry no refresh happens. -/
theorem ensureValidToken_refresh_threshold (opts : ClientOptions) (st : ClientState)
    (now : Int) (net : Option BrokerResp)
    (happ : opts.authMethod = AuthMethod.githubApp) (hsrv : opts.authServer ≠ "") :
    (ensureValidToken opts st now net).2 ≠ [] ↔ st.expiresAt < now + minute := by
  by_cases hc : st.expiresAt < now + minute
  · rw [ensureValidToken, if_neg (by simp [happ]), if_pos hc,
      refreshToken_trace opts st net hsrv]
    simp [hc]
  · simp [ensureValidToken, happ, hc]

/-- Witness for C3 (amended): an expiry 30 seconds out is refreshed at
time 0. -/
theorem ensureValidToken_refresh_threshold_witness :
    (ensureValidToken ⟨.githubApp, 1, 2, "http://auth", "", "", ""⟩ ⟨"tok", 30⟩ 0
        (some ⟨200, "", some ⟨"new", 7200⟩⟩)).2 ≠ [] := by
  exact (ensureValidToken_refresh_threshold ⟨.githubApp, 1, 2, "http://auth", "", "", ""⟩
      ⟨"tok", 30⟩ 0 (some ⟨200, "", some ⟨"new", 7200⟩⟩) rfl (by decide)).mpr (by decide)

/-- Claim C8: when the refresh an operation triggered fails, the error is
propagated to that caller, the cached state is left as it was, and no
GitHub API request is made with the stale credential for that operation
(ListOrgSecrets being the cited operation). -/
theorem listOrgSecrets_fails_closed (opts : ClientOptions) (st : ClientState) (now : Int)
    (org : String) (brokerNet : Option BrokerResp) (ghNet : GHListResp) (e : ClientErr)
    (href : (ensureValidToken opts st now brokerNet).1 = .error e) :
    (ListOrgSecrets opts st now org brokerNet ghNet).1 = .error e ∧
    (ListOrgSecrets opts st now org brokerNet ghNet).2.1 = st ∧
    (∀ u b, ClientCall.githubAPI u b ∉ (ListOrgSecrets opts st now org brokerNet ghNet).2.2) := by
  have h2 := ensureValidToken_no_github_call opts st now brokerNet
  rw [ListOrgSecrets] at *
  rw [href] at *
  exact ⟨rfl, rfl, h2⟩

/-- Witness for C8: an unreachable broker (network failure) on an expired
credential makes ListOrgSecrets fail with the refresh error and issue no
GitHub request, even though the GitHub side would have answered. -/
theorem listOrgSecrets_fails_closed_witness :
    (ListOrgSecrets ⟨.githubApp, 1, 2, "http://auth", "", "", ""⟩ ⟨"old", 0⟩ 100 "acme"
        none ⟨true, ["S1"]⟩).1 = .error .networkErr ∧
    (ListOrgSecrets ⟨.githubApp, 1, 2, "http://auth", "", "", ""⟩ ⟨"old", 0⟩ 100 "acme"
        none ⟨true, ["S1"]⟩).2.1 = ⟨"old", 0⟩ ∧
    (∀ u b, ClientCall.githubAPI u b ∉
      (ListOrgSecrets ⟨.githubApp, 1, 2, "http://auth", "", "", ""⟩ ⟨"old", 0⟩ 100 "acme"
        none ⟨true, ["S1"]⟩).2.2) := by
  exact listOrgSecrets_fails_closed ⟨.githubApp, 1, 2, "http://auth", "", "", ""⟩ ⟨"old", 0⟩
    100 "acme" none ⟨true, ["S1"]⟩ .networkErr rfl

/-- Claim C10: a client whose auth method is not GitHub App gets an
immediate success from ensureValidToken with no broker contact, and an
operation (ListOrgSecrets) on such a client leaves the cached credential
fields unchanged and performs no token refresh. -/
theorem ensureValidToken_pat_noop (opts : ClientOptions) (st : ClientState) (now : Int)
    (net : Option BrokerResp) (h : opts.authMethod ≠ AuthMethod.githubApp) :
    ensureValidToken opts st now net = (.ok st, []) ∧
    (∀ org ghNet, (ListOrgSecrets opts st now org net ghNet).2.1 = st ∧
      ∀ aid iid u o t,
        ClientCall.brokerToken aid iid u o t ∉ (ListOrgSecrets opts st now org net ghNet).2.2) := by
  have h1 : ensureValidToken opts st now net = (.ok st, []) := by
    simp [ensureValidToken, h]
  refine ⟨h1, fun org ghNet => ?_⟩
  rw [ListOrgSecrets, h1]
  by_cases hg : ghNet.succeeds <;> simp [hg]

/-- Witness for C10 on a concrete PAT client with an expired cached state
and a broker that would have answered. -/
theorem ensureValidToken_pat_noop_witness :
    ensureValidToken ⟨.pat, 1, 2, "http://auth", "", "", ""⟩ ⟨"old", 0⟩ 100
        (some ⟨200, "", some ⟨"new", 7200⟩⟩) = (.ok ⟨"old", 0⟩, []) := by
  exact (ensureValidToken_pat_noop ⟨.pat, 1, 2, "http://auth", "", "", ""⟩ ⟨"old", 0⟩ 100
    (some ⟨200, "", some ⟨"new", 7200⟩⟩) (by decide)).1

/-- Counterexample to claim C9: two concurrent callers of one Client that
both observe the expired shared credential do NOT coalesce into a single
broker request.  Under the schedule where both callers evaluate the expiry
condition before either refreshes, both complete and two broker requests
are issued, because the Client holds no lock around ensureValidToken. -/
theorem concurrentRefresh_counterexample :
    (runConc 100 ⟨"new", 100000⟩ [0, 1, 0, 1] ⟨⟨"old", 0⟩, 0, 0, 0⟩).pc0 = 2 ∧
    (runConc 100 ⟨"new", 100000⟩ [0, 1, 0, 1] ⟨⟨"old", 0⟩, 0, 0, 0⟩).pc1 = 2 ∧
    (runConc 100 ⟨"new", 100000⟩ [0, 1, 0, 1] ⟨⟨"old", 0⟩, 0, 0, 0⟩).brokerCalls = 2 :=
  ⟨rfl, rfl, rfl⟩

/-- Claim C9 (amended): with no mutual exclusion in the Client, every
caller that observes a near-expiry credential issues its own refresh: from
any expired shared state, the interleaving in which both callers check
before either refreshes always issues one broker request per caller, two
in total. -/
theorem concurrentRefresh_one_per_caller (st fresh : ClientState) (now : Int)
    (h : st.expiresAt < now + minute) :
    (runConc now fresh [0, 1, 0, 1] ⟨st, 0, 0, 0⟩).brokerCalls = 2 := by
  simp [runConc, concStep, h]

/-- Witness for C9 (amended) at a concrete expired state. -/
theorem concurrentRefresh_one_per_caller_witness :
    (runConc 100 ⟨"fresh", 100000⟩ [0, 1, 0, 1] ⟨⟨"stale", 0⟩, 0, 0, 0⟩).brokerCalls = 2 := by
  exact concurrentRefresh_one_per_caller ⟨"stale", 0⟩ ⟨"fresh", 100000⟩ 100 (by decide)

/-- Helper: with a present key, GetInstallation issues exactly the one
installation-lookup request, whatever the platform answers. -/
theorem getInstallation_trace (gh : GitHubAuth) (iid now : Int) (net : Option InstResp)
    (hkey : gh.hasKey = true) :
    (GetInstallation gh iid now net).2 = [UpstreamCall.installLookup iid] := by
  have hjwt : GenerateJWT gh now =
      .ok { issuedAt := now, expiresAt := now + 10 * minute, issuer := toString gh.appID } := by
    simp [GenerateJWT, hkey]
  cases net with
  | none => simp [GetInstallation, hjwt]
  | some resp =>
    by_cases hs : resp.status = 200
    · cases hp : resp.parsed with
      | none => simp [GetInstallation, hjwt, hs, hp]
      | some inst => by_cases hl : inst.login = "" <;> simp [GetInstallation, hjwt, hs, hp, hl]
    · simp [GetInstallation, hjwt, hs]

/-- Helper: with a present key, GetInstallationToken issues exactly the one
token-exchange request, whatever the platform answers. -/
theorem getInstallationToken_trace (gh : GitHubAuth) (iid now : Int)
    (net : Option ExchangeResp) (hkey : gh.hasKey = true) :
    (GetInstallationToken gh iid now net).2 = [UpstreamCall.tokenExchange iid] := by
  have hjwt : GenerateJWT gh now =
      .ok { issuedAt := now, expiresAt := now + 10 * minute, issuer := toString gh.appID } := by
    simp [GenerateJWT, hkey]
  cases net with
  | none => simp [GetInstallationToken, hjwt]
  | some resp =>
    by_cases hs : resp.status = 201
    · cases hp : resp.parsed with
      | none => simp [GetInstallationToken, hjwt, hs, hp]
      | some t =>
        by_cases hv : t.token = "" ∨ t.expiresAt = 0 <;>
          simp [GetInstallationToken, hjwt, hs, hp, hv]
    · simp [GetInstallationToken, hjwt, hs]

/-- Helper: a successfully looked-up installation has a non-empty account
login (GetInstallation rejects a missing login). -/
theorem getInstallation_ok_login_nonempty (gh : GitHubAuth) (iid now : Int)
    (net : Option InstResp) :
    ∀ inst : InstBody, (GetInstallation gh iid now net).1 = .ok inst → inst.login ≠ "" := by
  intro inst hok
  by_cases hkey : gh.hasKey = true
  · have hjwt : GenerateJWT gh now =
        .ok { issuedAt := now, expiresAt := now + 10 * minute, issuer := toString gh.appID } := by
      simp [GenerateJWT, hkey]
    cases net with
    | none => simp [GetInstallation, hjwt] at hok
    | some resp =>
      by_cases hs : resp.status = 200
      · cases hp : resp.parsed with
        | none => simp [GetInstallation, hjwt, hs, hp] at hok
        | some i2 =>
          by_cases hl : i2.login = ""
          · simp [GetInstallation, hjwt, hs, hp, hl] at hok
          · simp [GetInstallation, hjwt, hs, hp, hl] at hok
            rw [← hok]
            exact hl
      · simp [GetInstallation, hjwt, hs] at hok
  · have : gh.hasKey = false := by
      cases h : gh.hasKey
      · rfl
      · exact absurd h hkey
    simp [GetInstallation, GenerateJWT, this] at hok

/-- Helper: a resolved organization is never the empty string: either it
was supplied, or it is the non-empty login of the looked-up installation. -/
theorem resolveOrganization_nonempty (gh : GitHubAuth) (iid now : Int)
    (orgParam : String) (up : PlatformOracle) :
    ∀ org, (resolveOrganization gh iid now orgParam up).1 = some org → org ≠ "" := by
  intro org hres
  by_cases horg : orgParam = ""
  · rcases hr : (GetInstallation gh iid now up.install).1 with e | inst
    · simp [resolveOrganization, horg, hr] at hres
    · simp [resolveOrganization, horg, hr] at hres
      rw [← hres]
      exact getInstallation_ok_login_nonempty gh iid now up.install inst hr
  · simp [resolveOrganization, horg] at hres
    rw [← hres]
    exact horg

/-- Helper: a positive verifier decision can only come from a 200 response
whose decoded state is exactly the active state. -/
theorem verifyTeamMembership_ok_true (gh : GitHubAuth) (tok u o t : String)
    (net : Option MembershipResp) :
    (VerifyTeamMembership gh tok u o t net).1 = .ok true →
      ∃ m : MembershipResp, net = some m ∧ m.status = 200 ∧
        m.parsedState = some "active" := by
  intro hv
  by_cases hval : u = "" ∨ o = "" ∨ t = ""
  · simp [VerifyTeamMembership, hval] at hv
  · cases net with
    | none => simp [VerifyTeamMembership, hval] at hv
    | some m =>
      refine ⟨m, rfl, ?_⟩
      by_cases h200 : m.status = 200
      · cases hp : m.parsedState with
        | none => simp [VerifyTeamMembership, hval, h200, hp] at hv
        | some s =>
          simp [VerifyTeamMembership, hval, h200, hp] at hv
          exact ⟨h200, by simp [hp, hv]⟩
      · by_cases h404 : m.status = 404
        · simp [VerifyTeamMembership, hval, h200, h404] at hv
        · by_cases h403 : m.status = 403 <;>
            simp [VerifyTeamMembership, hval, h200, h404, h403] at hv

/-- Helper: a pending or not-found membership response yields the negative
decision, not an error, when the query fields are all non-empty. -/
theorem verifyTeamMembership_negative (gh : GitHubAuth) (tok u o t : String)
    (m : MembershipResp) (hu : u ≠ "") (ho : o ≠ "") (ht : t ≠ "")
    (hneg : m.status = 404 ∨ (m.status = 200 ∧ ∃ s, m.parsedState = some s ∧ s ≠ "active")) :
    (VerifyTeamMembership gh tok u o t (some m)).1 = .ok false := by
  have hval : ¬(u = "" ∨ o = "" ∨ t = "") := by simp [hu, ho, ht]
  rcases hneg with h404 | ⟨h200, s, hp, hs⟩
  · simp [VerifyTeamMembership, hval, h404]
  · simp [VerifyTeamMembership, hval, h200, hp, hs]

/-- Helper: the reply of the gated path carries a token only when the
membership response was 200 with the active state. -/
theorem gatedIssue_token_requires_active (gh : GitHubAuth) (iid now : Int)
    (username orgParam team : String) (up : PlatformOracle) :
    ∀ t e, (gatedIssue gh iid now username orgParam team up).1.body = RespBody.jsonToken t e →
      ∃ m : MembershipResp, up.membership = some m ∧ m.status = 200 ∧
        m.parsedState = some "active" := by
  intro t e htok
  rcases hro : (resolveOrganization gh iid now orgParam up).1 with _ | org
  · simp [gatedIssue, hro] at htok
  · by_cases huser : username = ""
    · simp [gatedIssue, hro, huser] at htok
    · rcases hex : (GetInstallationToken gh iid now up.exchange).1 with err | tok
      · simp [gatedIssue, hro, huser, hex] at htok
      · rcases hvr : (VerifyTeamMembership gh tok.token username org team up.membership).1
          with err | b
        · simp [gatedIssue, hro, huser, hex, hvr] at htok
        · cases b with
          | true =>
            exact verifyTeamMembership_ok_true gh tok.token username org team up.membership hvr
          | false => simp [gatedIssue, hro, huser, hex, hvr] at htok

/-- Helper: if the gated path performed the membership check and the
membership response was pending or not-found, the reply is a 403 carrying
no token. -/
theorem gatedIssue_negative_membership (gh : GitHubAuth) (iid now : Int)
    (username orgParam team : String) (up : PlatformOracle)
    (hkey : gh.hasKey = true) (hteam : team ≠ "") (m : MembershipResp)
    (hm : up.membership = some m)
    (hneg : m.status = 404 ∨ (m.status = 200 ∧ ∃ s, m.parsedState = some s ∧ s ≠ "active"))
    (hmem : ∃ o t u, UpstreamCall.membershipCheck o t u ∈
      (gatedIssue gh iid now username orgParam team up).2) :
    (gatedIssue gh iid now username orgParam team up).1.status = 403 ∧
      tokenOf (gatedIssue gh iid now username orgParam team up).1 = none := by
  have hroTrace : ∀ o t u, UpstreamCall.membershipCheck o t u ∉
      (resolveOrganization gh iid now orgParam up).2 := by
    intro o t u
    by_cases horg : orgParam = ""
    · rw [resolveOrganization]
      simp only [horg]
      rcases hr : (GetInstallation gh iid now up.install).1 with err | inst <;>
        simp [hr, getInstallation_trace gh iid now up.install hkey]
    · simp [resolveOrganization, horg]
  rcases hro : (resolveOrganization gh iid now orgParam up).1 with _ | org
  · obtain ⟨o, t, u, hin⟩ := hmem
    rw [gatedIssue] at hin
    simp only [hro] at hin
    exact absurd hin (hroTrace o t u)
  · by_cases huser : username = ""
    · obtain ⟨o, t, u, hin⟩ := hmem
      subst huser
      simp only [gatedIssue] at hin
      simp [hro] at hin
      exact absurd hin (hroTrace o t u)
    · rcases hex : (GetInstallationToken gh iid now up.exchange).1 with err | tok
      · obtain ⟨o, t, u, hin⟩ := hmem
        rw [gatedIssue] at hin
        simp [hro, huser, hex,
          getInstallationToken_trace gh iid now up.exchange hkey] at hin
        exact absurd hin (hroTrace o t u)
      · have horg : org ≠ "" :=
          resolveOrganization_nonempty gh iid now orgParam up org hro
        have hvr : (VerifyTeamMembership gh tok.token username org team up.membership).1 =
            .ok false := by
          rw [hm]
          exact verifyTeamMembership_negative gh tok.token username org team m
            huser horg hteam hneg
        simp [gatedIssue, hro, huser, hex, hvr, tokenOf]

/-- Helper: under a team gate, handleToken either rejects early with a
message reply and no upstream calls, or it runs the gated issuance path
with the parsed installation id and the effective organization and team. -/
theorem handleToken_gate_shape (h : Handler) (req : TokenRequest) (now : Int)
    (up : PlatformOracle) (hgate : effectiveTeam h req ≠ "") :
    (∃ c msg, handleToken h req now up = (⟨c, .message msg⟩, [])) ∨
    (∃ a i, parseInt64 req.appID = some a ∧ parseInt64 req.installationID = some i ∧
      h.keyOk = true ∧
      handleToken h req now up =
        gatedIssue ⟨true, a⟩ i now req.username (effectiveOrgParam h req)
          (effectiveTeam h req) up) := by
  by_cases hm : req.method = "POST"
  · by_cases ha : req.appID = ""
    · exact Or.inl ⟨400, "app-id query parameter is required", by simp [handleToken, hm, ha]⟩
    · by_cases hi : req.installationID = ""
      · exact Or.inl ⟨400, "installation-id query parameter is required",
          by simp [handleToken, hm, ha, hi]⟩
      · rcases hpa : parseInt64 req.appID with _ | a
        · exact Or.inl ⟨400, "invalid app-id", by simp [handleToken, hm, ha, hi, hpa]⟩
        · rcases hpi : parseInt64 req.installationID with _ | i
          · exact Or.inl ⟨400, "invalid installation-id",
              by simp [handleToken, hm, ha, hi, hpa, hpi]⟩
          · by_cases hk : h.keyOk
            · exact Or.inr ⟨a, i, rfl, rfl, hk,
                by simp [handleToken, hm, ha, hi, hpa, hpi, hk, hgate]⟩
            · exact Or.inl ⟨500, "Failed to initialize GitHub auth",
                by simp [handleToken, hm, ha, hi, hpa, hpi, hk]⟩
  · exact Or.inl ⟨405, "Method not allowed", by simp [handleToken, hm]⟩

/-- Helper: auto-detection performs exactly the one installation-lookup
request. -/
theorem resolveOrganization_auto_trace (gh : GitHubAuth) (iid now : Int)
    (up : PlatformOracle) (hkey : gh.hasKey = true) :
    (resolveOrganization gh iid now "" up).2 = [UpstreamCall.installLookup iid] := by
  rcases hr : (GetInstallation gh iid now up.install).1 with err | inst <;>
    simp [resolveOrganization, hr, getInstallation_trace gh iid now up.install hkey]

/-- Helper: the gated path with an empty username replies 400; its trace is
empty when an organization was supplied and is the single auto-detect
lookup otherwise. -/
theorem gatedIssue_missing_username (gh : GitHubAuth) (iid now : Int)
    (orgParam team : String) (up : PlatformOracle) (hkey : gh.hasKey = true) :
    (gatedIssue gh iid now "" orgParam team up).1.status = 400 ∧
    (gatedIssue gh iid now "" orgParam team up).2 =
      (if orgParam = "" then [UpstreamCall.installLookup iid] else []) := by
  by_cases horg : orgParam = ""
  · subst horg
    rcases hro : (resolveOrganization gh iid now "" up).1 with _ | org <;>
      simp [gatedIssue, hro, resolveOrganization_auto_trace gh iid now up hkey]
  · have hro : resolveOrganization gh iid now orgParam up = (some orgParam, []) := by
      simp [resolveOrganization, horg]
    simp [gatedIssue, hro, horg]

/-- Claim C1: under a team gate, the handler releases the installation
token only when membership verification returned the active decision, and
whenever the membership check was performed and came back pending or
not-found, the reply is a 403 carrying no token. -/
theorem handleToken_gate_releases_only_active (h : Handler) (req : TokenRequest) (now : Int)
    (up : PlatformOracle) (hgate : effectiveTeam h req ≠ "") :
    (∀ t e, (handleToken h req now up).1.body = RespBody.jsonToken t e →
        ∃ m : MembershipResp, up.membership = some m ∧ m.status = 200 ∧
          m.parsedState = some "active") ∧
    (∀ m : MembershipResp, up.membership = some m →
        (m.status = 404 ∨ (m.status = 200 ∧ ∃ s, m.parsedState = some s ∧ s ≠ "active")) →
        (∃ o t u, UpstreamCall.membershipCheck o t u ∈ (handleToken h req now up).2) →
        (handleToken h req now up).1.status = 403 ∧
          tokenOf (handleToken h req now up).1 = none) := by
  rcases handleToken_gate_shape h req now up hgate with ⟨c, msg, hred⟩ | ⟨a, i, _, _, _, hred⟩
  · constructor
    · intro t e htok
      rw [hred] at htok
      simp at htok
    · intro m hm hneg hmem
      obtain ⟨o, t, u, hin⟩ := hmem
      rw [hred] at hin
      simp at hin
  · rw [hred]
    constructor
    · intro t e htok
      exact gatedIssue_token_requires_active ⟨true, a⟩ i now req.username
        (effectiveOrgParam h req) (effectiveTeam h req) up t e htok
    · intro m hm hneg hmem
      exact gatedIssue_negative_membership ⟨true, a⟩ i now req.username
        (effectiveOrgParam h req) (effectiveTeam h req) up rfl hgate m hm hneg hmem

/-- Witness for C1: a server gated on acme/core, a 201 exchange, and a
pending membership response produce a 403 reply without the exchanged
token. -/
theorem handleToken_gate_releases_only_active_witness :
    (handleToken ⟨true, "acme", "core"⟩ ⟨"POST", "123456", "987654", "alice", "", ""⟩ 0
        ⟨none, some ⟨201, "", some ⟨"ghs_tok", 3600⟩⟩,
          some ⟨200, "", some "pending"⟩⟩).1.status = 403 ∧
    tokenOf (handleToken ⟨true, "acme", "core"⟩
        ⟨"POST", "123456", "987654", "alice", "", ""⟩ 0
        ⟨none, some ⟨201, "", some ⟨"ghs_tok", 3600⟩⟩,
          some ⟨200, "", some "pending"⟩⟩).1 = none := by
  exact (handleToken_gate_releases_only_active ⟨true, "acme", "core"⟩
      ⟨"POST", "123456", "987654", "alice", "", ""⟩ 0
      ⟨none, some ⟨201, "", some ⟨"ghs_tok", 3600⟩⟩, some ⟨200, "", some "pending"⟩⟩
      (by decide)).2 ⟨200, "", some "pending"⟩ rfl
    (Or.inr ⟨rfl, "pending", rfl, by decide⟩)
    ⟨"acme", "core", "alice", by decide⟩

/-- Counterexample to claim C2: with the server team set, no organization
configured or supplied, and the username absent, the handler (per the
specification algorithm, section 4.4, where organization resolution
precedes the username check) performs the auto-detect installation lookup
before rejecting with a 400, so the upstream call count is not zero. -/
theorem handleToken_missing_username_counterexample :
    (handleToken ⟨true, "", "testteam"⟩ ⟨"POST", "123456", "987654", "", "", ""⟩ 0
        ⟨some ⟨200, "", some ⟨"acme", "Organization"⟩⟩, none, none⟩).1.status = 400 ∧
    (handleToken ⟨true, "", "testteam"⟩ ⟨"POST", "123456", "987654", "", "", ""⟩ 0
        ⟨some ⟨200, "", some ⟨"acme", "Organization"⟩⟩, none, none⟩).2 =
      [UpstreamCall.installLookup 987654] :=
  ⟨rfl, rfl⟩

/-- Claim C2 (amended): under a team gate with the username empty or
absent, a POST /token request on a server with loaded key material is
rejected with a 400 before any token exchange or membership check; the
upstream trace is empty whenever the organization is configured or
supplied, and otherwise contains only the auto-detect installation
lookup. -/
theorem handleToken_missing_username_rejected (h : Handler) (req : TokenRequest) (now : Int)
    (up : PlatformOracle) (hm : req.method = "POST") (hk : h.keyOk = true)
    (hgate : effectiveTeam h req ≠ "") (huser : req.username = "") :
    (handleToken h req now up).1.status = 400 ∧
    (∀ i, UpstreamCall.tokenExchange i ∉ (handleToken h req now up).2) ∧
    (∀ o t u, UpstreamCall.membershipCheck o t u ∉ (handleToken h req now up).2) ∧
    (effectiveOrgParam h req ≠ "" → (handleToken h req now up).2 = []) := by
  by_cases ha : req.appID = ""
  · simp [handleToken, hm, ha]
  · by_cases hi : req.installationID = ""
    · simp [handleToken, hm, ha, hi]
    · rcases hpa : parseInt64 req.appID with _ | a
      · simp [handleToken, hm, ha, hi, hpa]
      · rcases hpi : parseInt64 req.installationID with _ | i
        · simp [handleToken, hm, ha, hi, hpa, hpi]
        · have hred : handleToken h req now up =
              gatedIssue ⟨true, a⟩ i now req.username (effectiveOrgParam h req)
                (effectiveTeam h req) up := by
            simp [handleToken, hm, ha, hi, hpa, hpi, hk, hgate]
          rw [hred, huser]
          obtain ⟨hg1, hg2⟩ := gatedIssue_missing_username ⟨true, a⟩ i now
            (effectiveOrgParam h req) (effectiveTeam h req) up rfl
          refine ⟨hg1, ?_, ?_, ?_⟩
          · intro j
            rw [hg2]
            by_cases horg : effectiveOrgParam h req = "" <;> simp [horg]
          · intro o t u
            rw [hg2]
            by_cases horg : effectiveOrgParam h req = "" <;> simp [horg]
          · intro horg
            rw [hg2]
            exact if_neg horg

/-- Witness for C2 (amended): a concrete gated request whose organization
is configured and whose username is absent yields a 400 with an empty
upstream trace. -/
theorem handleToken_missing_username_rejected_witness :
    (handleToken ⟨true, "testorg", "testteam"⟩ ⟨"POST", "123456", "987654", "", "", ""⟩ 0
        ⟨none, none, none⟩).1.status = 400 ∧
    (handleToken ⟨true, "testorg", "testteam"⟩ ⟨"POST", "123456", "987654", "", "", ""⟩ 0
        ⟨none, none, none⟩).2 = [] := by
  have h := handleToken_missing_username_rejected ⟨true, "testorg", "testteam"⟩
    ⟨"POST", "123456", "987654", "", "", ""⟩ 0 ⟨none, none, none⟩ rfl rfl
    (by decide) rfl
  exact ⟨h.1, h.2.2.2 (by decide)⟩

end SecretsManager
